import Mathlib

/-!
Shallow embedding of the timesync room server (backend served from
`script.js`, Express variant): in-memory room registry, membership
lifecycle, timer reset with the previousStartTime banking rule, and
SSE fan-out.  JS `Map`s are modelled as association lists preserving
insertion order, `Set`s of stream handles as duplicate-free lists,
timestamps as integers (milliseconds), and the nondeterministic
inputs (`Date.now()`, `crypto.randomUUID()`, `generateRoomCode()`)
as explicit parameters.
-/

/-- A member record, as built in the join handler. -/
structure Member where
  id : String
  name : String
  timezone : String
  locale : String
  joinedAt : Int
deriving DecidableEq

/-- One SSE response handle.  `writeOk` models whether a `res.write`
on this handle succeeds or throws (dead socket). -/
structure Handle where
  hid : Nat
  writeOk : Bool
deriving DecidableEq

/-- A room record as stored in the `rooms` map. -/
structure Room where
  code : String
  createdAt : Int
  startTime : Int
  previousStartTime : Int
  members : List (String × Member)
  streams : List Handle
deriving DecidableEq

/-- The global `rooms` map. -/
abbrev Registry := List (String × Room)

/-- `Map.get` / `Map.has`: first binding of the key. -/
def lookupA {α : Type} : List (String × α) → String → Option α
  | [], _ => none
  | (k, v) :: rest, key => if k = key then some v else lookupA rest key

/-- `Map.set`: update in place if the key exists, else append. -/
def setA {α : Type} : List (String × α) → String → α → List (String × α)
  | [], key, v => [(key, v)]
  | (k, w) :: rest, key, v =>
      if k = key then (key, v) :: rest else (k, w) :: setA rest key v

/-- `Map.delete`: remove the first binding of the key. -/
def eraseA {α : Type} : List (String × α) → String → List (String × α)
  | [], _ => []
  | (k, w) :: rest, key => if k = key then rest else (k, w) :: eraseA rest key

/-- `Set.add` on the stream set: no-op if already present. -/
def addStream (l : List Handle) (h : Handle) : List Handle :=
  if h ∈ l then l else l ++ [h]

/-- `Set.delete` on the stream set. -/
def delStream (l : List Handle) (h : Handle) : List Handle :=
  l.filter (fun x => x ≠ h)

/-- Payloads of the four SSE event kinds. -/
inductive EventData where
  | initData (createdAt startTime previousStartTime : Int)
      (code : String) (members : List Member)
  | memberJoined (m : Member)
  | memberLeft (memberId : String)
  | timerUpdate (startTime previousStartTime : Int)
deriving DecidableEq

/-- One attempted SSE write: to whom, which event, which payload, and
whether the underlying write succeeded. -/
structure SentEvent where
  target : Handle
  name : String
  data : EventData
  delivered : Bool
deriving DecidableEq

/-- The raw `res.write` pair inside `sendSSE`: fails on a dead handle. -/
def rawWrite (h : Handle) (ev : String) (d : EventData) : Except String SentEvent :=
  if h.writeOk then Except.ok ⟨h, ev, d, true⟩ else Except.error "write EPIPE"

/-- `sendSSE`: wraps the write in try/catch, so a failure is logged and
swallowed, never propagated. -/
def sendSSE (h : Handle) (ev : String) (d : EventData) : SentEvent :=
  match rawWrite h ev d with
  | Except.ok e => e
  | Except.error _ => ⟨h, ev, d, false⟩

/-- `broadcast`: one `sendSSE` per current stream of the room. -/
def broadcast (room : Room) (ev : String) (d : EventData) : List SentEvent :=
  room.streams.map (fun h => sendSSE h ev d)

/-- Character kept by the normalization regex `[^A-Z0-9]` after
`toUpperCase`. -/
def isCodeChar (c : Char) : Bool := c.isUpper || c.isDigit

/-- `roomCode.toUpperCase().replace(/[^A-Z0-9]/g, "")`. -/
def normalizeCode (s : String) : String :=
  String.mk ((s.toList.map Char.toUpper).filter isCodeChar)

/-- Code selection in `POST /rooms`: a missing or empty (falsy) body
code, or one that normalizes to empty, falls back to the freshly
generated code `gen`. -/
def chooseCode (reqCode : Option String) (gen : String) : String :=
  match reqCode with
  | none => gen
  | some rc =>
      if rc = "" then gen
      else if normalizeCode rc = "" then gen
      else normalizeCode rc

/-- The room inserted on creation: all three timestamps are the
creation instant, members and streams empty. -/
def newRoom (code : String) (now : Int) : Room :=
  { code := code, createdAt := now, startTime := now, previousStartTime := now,
    members := [], streams := [] }

/-- Outcome of `POST /rooms`: a 200 with the new registry, code and
response `createdAt`, or a 400 with the error message. -/
inductive CreateResult where
  | ok (reg : Registry) (code : String) (createdAt : Int)
  | conflict (error : String)
deriving DecidableEq

/-- `POST /rooms`: choose the code, fail with 400 if it is already in
the registry, else insert the new room. -/
def createRoomRoute (reg : Registry) (reqCode : Option String)
    (gen : String) (now : Int) : CreateResult :=
  let roomCode := chooseCode reqCode gen
  match lookupA reg roomCode with
  | some _ => CreateResult.conflict "Room code already exists"
  | none => CreateResult.ok (setA reg roomCode (newRoom roomCode now)) roomCode now

/-- The `roomState` snapshot returned by the join handler. -/
structure RoomState where
  code : String
  createdAt : Int
  startTime : Int
  previousStartTime : Int
  members : List Member
deriving DecidableEq

/-- Snapshot of the live room state. -/
def roomSnapshot (room : Room) : RoomState :=
  { code := room.code, createdAt := room.createdAt, startTime := room.startTime,
    previousStartTime := room.previousStartTime,
    members := room.members.map (fun p => p.2) }

/-- `POST /rooms/:code/join`.  `none` is the 404 case.  `freshId`
stands for the `crypto.randomUUID()` drawn in the fresh branch.  A
supplied `memberId` that is truthy and present in the room takes the
reconnect branch: no mutation, no broadcast. -/
def joinRoute (reg : Registry) (code : String) (memberId : Option String)
    (nm tz loc : String) (freshId : String) (now : Int) :
    Option (Registry × Member × RoomState × List SentEvent) :=
  match lookupA reg code with
  | none => none
  | some room =>
    let existing : Option Member :=
      match memberId with
      | some mid => if mid = "" then none else lookupA room.members mid
      | none => none
    match existing with
    | some m => some (reg, m, roomSnapshot room, [])
    | none =>
      let m : Member :=
        { id := freshId, name := nm, timezone := tz, locale := loc, joinedAt := now }
      let room2 : Room := { room with members := setA room.members freshId m }
      some (setA reg code room2, m, roomSnapshot room2,
            broadcast room2 "member-joined" (EventData.memberJoined m))

/-- Core of `POST /rooms/:code/reset`: bank the old start into
`previousStartTime` iff it is not a still-pending future countdown,
then set `startTime` to the requested value if truthy, else `now`
(`startTime || now`: a requested 0 is falsy). -/
def resetTimer (room : Room) (reqStart : Option Int) (now : Int) : Room :=
  let currentStart := room.startTime
  let prev := if currentStart ≤ now then currentStart else room.previousStartTime
  let newStart :=
    match reqStart with
    | none => now
    | some v => if v = 0 then now else v
  { room with previousStartTime := prev, startTime := newStart }

/-- `POST /rooms/:code/reset`: 404 if the room is absent, else update
the timer state, broadcast `timer-update`, and answer the new
`startTime`. -/
def resetRoute (reg : Registry) (code : String) (reqStart : Option Int)
    (now : Int) : Option (Registry × Int × List SentEvent) :=
  match lookupA reg code with
  | none => none
  | some room =>
    let room2 := resetTimer room reqStart now
    some (setA reg code room2, room2.startTime,
          broadcast room2 "timer-update"
            (EventData.timerUpdate room2.startTime room2.previousStartTime))

/-- `POST /rooms/:code/leave`: remove the member and broadcast
`member-left` only when both room and member exist; always answer 204.
The route never deletes the room from the registry. -/
def leaveRoute (reg : Registry) (code : String) (memberId : String) :
    Registry × Nat × List SentEvent :=
  match lookupA reg code with
  | none => (reg, 204, [])
  | some room =>
    match lookupA room.members memberId with
    | none => (reg, 204, [])
    | some _ =>
      let room2 : Room := { room with members := eraseA room.members memberId }
      (setA reg code room2, 204,
       broadcast room2 "member-left" (EventData.memberLeft memberId))

/-- The `init` snapshot payload sent to a newly attached handle. -/
def initEvent (room : Room) : EventData :=
  EventData.initData room.createdAt room.startTime room.previousStartTime
    room.code (room.members.map (fun p => p.2))

/-- `GET /events` open path: 404 when the room is absent (nothing
attached); else add the handle to the stream set and send the `init`
snapshot to that handle alone. -/
def eventsOpenRoute (reg : Registry) (code : String) (h : Handle) :
    Option (Registry × List SentEvent) :=
  match lookupA reg code with
  | none => none
  | some room =>
    let room2 : Room := { room with streams := addStream room.streams h }
    some (setA reg code room2, [sendSSE h "init" (initEvent room2)])

/-- The `req.on("close")` handler of `GET /events`: drop the handle,
remove the bound member (if any, truthy and still present) with a
`member-left` broadcast, then delete the room when both members and
streams are empty. -/
def eventsClose (reg : Registry) (code : String) (h : Handle)
    (memberId : Option String) : Registry × List SentEvent :=
  match lookupA reg code with
  | none => (reg, [])
  | some room =>
    let room1 : Room := { room with streams := delStream room.streams h }
    let step : Room × List SentEvent :=
      match memberId with
      | none => (room1, [])
      | some mid =>
        if mid = "" then (room1, [])
        else
          match lookupA room1.members mid with
          | none => (room1, [])
          | some _ =>
            let r : Room := { room1 with members := eraseA room1.members mid }
            (r, broadcast r "member-left" (EventData.memberLeft mid))
    let room2 := step.1
    if room2.members = [] ∧ room2.streams = [] then (eraseA reg code, step.2)
    else (setA reg code room2, step.2)

/-! ### Association-list lemmas -/

theorem lookupA_setA_self {α : Type} (l : List (String × α)) (k : String) (v : α) :
    lookupA (setA l k v) k = some v := by
  induction l with
  | nil => simp [setA, lookupA]
  | cons p rest ih =>
    by_cases h : p.1 = k
    · simp [setA, h, lookupA]
    · simp only [setA, h, if_false, lookupA, ih]

theorem lookupA_setA_ne {α : Type} (l : List (String × α)) (k k2 : String) (v : α)
    (hne : k2 ≠ k) : lookupA (setA l k v) k2 = lookupA l k2 := by
  induction l with
  | nil => simp [setA, lookupA, Ne.symm hne]
  | cons p rest ih =>
    by_cases h : p.1 = k
    · simp [setA, h, lookupA, Ne.symm hne]
    · simp only [setA, h, if_false, lookupA, ih]

/-! ### Reset route (claims about the timer state machine) -/

/-- Claim C1: on a reset of an existing room, if the room's current
`startTime` is at or before `now` (expired, equality included), the
stored `previousStartTime` becomes that prior `startTime`; if it is a
still-future countdown, `previousStartTime` is unchanged — for all
timestamps. -/
theorem reset_banks_previous_start (reg : Registry) (code : String) (room : Room)
    (reqStart : Option Int) (now : Int)
    (hroom : lookupA reg code = some room) :
    ∃ reg2 st evs, resetRoute reg code reqStart now = some (reg2, st, evs) ∧
      ∃ room2, lookupA reg2 code = some room2 ∧
        (room.startTime ≤ now → room2.previousStartTime = room.startTime) ∧
        (now < room.startTime → room2.previousStartTime = room.previousStartTime) := by
  refine ⟨_, _, _, by rw [resetRoute, hroom], resetTimer room reqStart now,
    lookupA_setA_self reg code _, ?_, ?_⟩
  · intro hle
    simp [resetTimer, hle]
  · intro hlt
    simp [resetTimer, not_le.mpr hlt]

/-- Claim C1 witness: reset with no body at the exact expiry instant
(`startTime = now = 10`) banks the old start. -/
theorem reset_banks_previous_start_witness :
    ∃ reg2 st evs, resetRoute [("AB", newRoom "AB" 10)] "AB" none 10
        = some (reg2, st, evs) ∧
      ∃ room2, lookupA reg2 "AB" = some room2 ∧ room2.previousStartTime = 10 := by
  obtain ⟨reg2, st, evs, h1, room2, h2, h3, _⟩ :=
    reset_banks_previous_start [("AB", newRoom "AB" 10)] "AB" (newRoom "AB" 10)
      none 10 (by decide)
  exact ⟨reg2, st, evs, h1, room2, h2, h3 (by decide)⟩

/-- Claim C5 counterexample: resetting with a provided `startTime` of 0
does not store 0 — `startTime || now` treats 0 as absent and stores
`now` (here 100). -/
theorem reset_zero_start_falls_back_to_now :
    (resetRoute [("AB", newRoom "AB" 50)] "AB" (some 0) 100).map (fun p => p.2.1)
        = some 100 ∧
      (resetRoute [("AB", newRoom "AB" 50)] "AB" (some 0) 100).map (fun p => p.2.1)
        ≠ some 0 := by
  constructor
  · rfl
  · decide

/-- Claim C5 amended: after a reset on an existing room, the stored
`startTime` equals the requested value whenever one was provided and is
nonzero (future values included); when none was provided, or the
provided value is 0 (falsy in `startTime || now`), it equals `now`. -/
theorem reset_sets_requested_or_now (reg : Registry) (code : String) (room : Room)
    (reqStart : Option Int) (now : Int)
    (hroom : lookupA reg code = some room) :
    ∃ reg2 st evs, resetRoute reg code reqStart now = some (reg2, st, evs) ∧
      ∃ room2, lookupA reg2 code = some room2 ∧ st = room2.startTime ∧
        (∀ v, reqStart = some v → v ≠ 0 → room2.startTime = v) ∧
        ((reqStart = none ∨ reqStart = some 0) → room2.startTime = now) := by
  refine ⟨_, _, _, by rw [resetRoute, hroom], resetTimer room reqStart now,
    lookupA_setA_self reg code _, rfl, ?_, ?_⟩
  · rintro v rfl hv
    simp [resetTimer, hv]
  · rintro (rfl | rfl)
    · simp [resetTimer]
    · simp [resetTimer]

/-- Claim C5 amended witness: a provided future `startTime` of 999 is
stored as-is. -/
theorem reset_sets_requested_or_now_witness :
    ∃ reg2 st evs, resetRoute [("AB", newRoom "AB" 50)] "AB" (some 999) 100
        = some (reg2, st, evs) ∧
      ∃ room2, lookupA reg2 "AB" = some room2 ∧ room2.startTime = 999 := by
  obtain ⟨reg2, st, evs, h1, room2, h2, _, h4, _⟩ :=
    reset_sets_requested_or_now [("AB", newRoom "AB" 50)] "AB" (newRoom "AB" 50)
      (some 999) 100 (by decide)
  exact ⟨reg2, st, evs, h1, room2, h2, h4 999 rfl (by decide)⟩

/-- Claim C10: a reset on an existing room can change only `startTime`
and `previousStartTime`: the room's code, `createdAt`, member map and
stream set are unchanged, and every other registry entry is untouched. -/
theorem reset_frame_only_timer_fields (reg : Registry) (code : String) (room : Room)
    (reqStart : Option Int) (now : Int)
    (hroom : lookupA reg code = some room) :
    ∃ reg2 st evs, resetRoute reg code reqStart now = some (reg2, st, evs) ∧
      ∃ room2, lookupA reg2 code = some room2 ∧
        room2.code = room.code ∧ room2.createdAt = room.createdAt ∧
        room2.members = room.members ∧ room2.streams = room.streams ∧
        (∀ c, c ≠ code → lookupA reg2 c = lookupA reg c) := by
  refine ⟨_, _, _, by rw [resetRoute, hroom], resetTimer room reqStart now,
    lookupA_setA_self reg code _, rfl, rfl, rfl, rfl, ?_⟩
  intro c hc
  exact lookupA_setA_ne reg code c _ hc

/-- Claim C10 witness: frame condition evaluated on a two-room registry. -/
theorem reset_frame_only_timer_fields_witness :
    ∃ reg2 st evs,
      resetRoute [("AB", newRoom "AB" 1), ("CD", newRoom "CD" 2)] "AB" none 9
        = some (reg2, st, evs) ∧
      ∃ room2, lookupA reg2 "AB" = some room2 ∧
        room2.members = [] ∧ room2.streams = [] ∧
        lookupA reg2 "CD" = some (newRoom "CD" 2) := by
  obtain ⟨reg2, st, evs, h1, room2, h2, _, _, hm, hs, hfr⟩ :=
    reset_frame_only_timer_fields [("AB", newRoom "AB" 1), ("CD", newRoom "CD" 2)]
      "AB" (newRoom "AB" 1) none 9 (by decide)
  refine ⟨reg2, st, evs, h1, room2, h2, hm, hs, ?_⟩
  rw [hfr "CD" (by decide)]
  rfl

/-! ### Broadcast lemmas -/

theorem sendSSE_eq (h : Handle) (ev : String) (d : EventData) :
    sendSSE h ev d = ⟨h, ev, d, h.writeOk⟩ := by
  cases hw : h.writeOk <;> simp [sendSSE, rawWrite, hw]

theorem broadcast_targets (room : Room) (ev : String) (d : EventData) :
    (broadcast room ev d).map (fun e => e.target) = room.streams := by
  unfold broadcast
  rw [List.map_map]
  have hfun : ((fun e : SentEvent => e.target) ∘ fun h => sendSSE h ev d)
      = fun h => h := by
    funext h
    simp [Function.comp, sendSSE_eq]
  rw [hfun]
  exact List.map_id' room.streams

theorem setA_append_of_not_mem {α : Type} (l : List (String × α)) (k : String)
    (v : α) (h : lookupA l k = none) : setA l k v = l ++ [(k, v)] := by
  induction l with
  | nil => simp [setA]
  | cons p rest ih =>
    obtain ⟨k0, w⟩ := p
    by_cases hp : k0 = k
    · simp [lookupA, hp] at h
    · simp only [lookupA, hp, if_false] at h
      simp [setA, hp, ih h]

/-! ### Room creation -/

/-- Claim C8: a successful room creation stores a room whose
`startTime`, `previousStartTime` and `createdAt` all equal the creation
instant (also reported as the response `createdAt`), with empty member
map and stream set. -/
theorem create_inserts_room_with_equal_timestamps (reg : Registry)
    (reqCode : Option String) (gen : String) (now : Int)
    (reg2 : Registry) (code : String) (created : Int)
    (h : createRoomRoute reg reqCode gen now = CreateResult.ok reg2 code created) :
    ∃ room, lookupA reg2 code = some room ∧
      room.startTime = room.previousStartTime ∧
      room.previousStartTime = room.createdAt ∧
      room.createdAt = now ∧ created = now ∧
      room.members = [] ∧ room.streams = [] := by
  cases hl : lookupA reg (chooseCode reqCode gen) with
  | some r => simp [createRoomRoute, hl] at h
  | none =>
    simp only [createRoomRoute, hl, CreateResult.ok.injEq] at h
    obtain ⟨h1, h2, h3⟩ := h
    subst h1; subst h2; subst h3
    exact ⟨newRoom (chooseCode reqCode gen) now, lookupA_setA_self _ _ _,
      rfl, rfl, rfl, rfl, rfl, rfl⟩

/-- Claim C8 witness: creating a room in an empty registry at instant
42 stores the all-42 timestamps and empty collections. -/
theorem create_inserts_room_with_equal_timestamps_witness :
    ∃ room, lookupA [("A1B2C3", newRoom "A1B2C3" 42)] "A1B2C3" = some room ∧
      room.startTime = room.previousStartTime ∧
      room.previousStartTime = room.createdAt ∧
      room.createdAt = 42 ∧ (42 : Int) = 42 ∧
      room.members = [] ∧ room.streams = [] :=
  create_inserts_room_with_equal_timestamps [] none "A1B2C3" 42
    [("A1B2C3", newRoom "A1B2C3" 42)] "A1B2C3" 42 (by decide)

/-- Claim C4 counterexample: a requested code "ab" normalizes to the
already-taken "AB"; the route does not fall back to the fresh generated
code "C3D4E5" — it fails with the 400 conflict. -/
theorem create_requested_taken_code_fails :
    createRoomRoute [("AB", newRoom "AB" 0)] (some "ab") "C3D4E5" 7
      = CreateResult.conflict "Room code already exists" := by decide

/-- Claim C4 amended: a requested code is normalized (uppercase,
non-alphanumerics stripped) and, when it normalizes to empty, replaced
by the fresh generated code; creation succeeds with the chosen code
when it is unused, but an already-taken chosen code makes the route
fail with the 400 conflict instead of salvaging. -/
theorem create_normalizes_then_conflicts_or_succeeds (reg : Registry)
    (rc gen : String) (now : Int) :
    (rc ≠ "" → normalizeCode rc ≠ "" →
      chooseCode (some rc) gen = normalizeCode rc) ∧
    (normalizeCode rc = "" → chooseCode (some rc) gen = gen) ∧
    (lookupA reg (chooseCode (some rc) gen) = none →
      createRoomRoute reg (some rc) gen now
        = CreateResult.ok
            (setA reg (chooseCode (some rc) gen)
              (newRoom (chooseCode (some rc) gen) now))
            (chooseCode (some rc) gen) now) ∧
    (∀ r, lookupA reg (chooseCode (some rc) gen) = some r →
      createRoomRoute reg (some rc) gen now
        = CreateResult.conflict "Room code already exists") := by
  refine ⟨?_, ?_, ?_, ?_⟩
  · intro h1 h2
    simp [chooseCode, h1, h2]
  · intro h2
    by_cases h1 : rc = ""
    · simp [chooseCode, h1]
    · simp [chooseCode, h1, h2]
  · intro hl
    simp [createRoomRoute, hl]
  · intro r hl
    simp [createRoomRoute, hl]

/-- Claim C4 amended witness: requesting "a!b" in an empty registry
normalizes to "AB" and creation succeeds with that code. -/
theorem create_normalizes_then_conflicts_or_succeeds_witness :
    createRoomRoute [] (some "a!b") "ZZZZ" 3
      = CreateResult.ok
          (setA [] (chooseCode (some "a!b") "ZZZZ")
            (newRoom (chooseCode (some "a!b") "ZZZZ") 3))
          (chooseCode (some "a!b") "ZZZZ") 3 :=
  (create_normalizes_then_conflicts_or_succeeds [] "a!b" "ZZZZ" 3).2.2.1 (by decide)

/-! ### Join, leave, room persistence -/

/-- Claim C3: join on an existing room.  Reconnect branch: a supplied
truthy memberId already mapping to a member returns exactly that record,
leaves the registry untouched and emits nothing.  Fresh branch: when no
valid existing id is supplied and the freshly drawn id is unused in the
room (randomUUID uniqueness), the new member carrying that id and
`joinedAt = now` is appended to the member map and a member-joined
event is addressed to every current subscriber. -/
theorem join_reconnect_or_fresh_insert (reg : Registry) (code : String)
    (room : Room) (nm tz loc freshId : String) (now : Int)
    (hroom : lookupA reg code = some room) :
    (∀ mid m, mid ≠ "" → lookupA room.members mid = some m →
      joinRoute reg code (some mid) nm tz loc freshId now
        = some (reg, m, roomSnapshot room, [])) ∧
    (∀ memberId : Option String,
      (∀ mid, memberId = some mid → mid = "" ∨ lookupA room.members mid = none) →
      lookupA room.members freshId = none →
      ∃ m room2,
        joinRoute reg code memberId nm tz loc freshId now
          = some (setA reg code room2, m, roomSnapshot room2,
              broadcast room2 "member-joined" (EventData.memberJoined m)) ∧
        m.id = freshId ∧ m.joinedAt = now ∧
        room2.members = room.members ++ [(freshId, m)] ∧
        lookupA room2.members freshId = some m ∧
        (broadcast room2 "member-joined" (EventData.memberJoined m)).map
            (fun e => e.target) = room.streams) := by
  constructor
  · intro mid m hmid hm
    simp [joinRoute, hroom, hmid, hm]
  · intro memberId hmem hfresh
    refine ⟨⟨freshId, nm, tz, loc, now⟩,
      { room with members := setA room.members freshId ⟨freshId, nm, tz, loc, now⟩ },
      ?_, rfl, rfl, ?_, lookupA_setA_self _ _ _,
      broadcast_targets _ "member-joined" _⟩
    · cases memberId with
      | none => simp [joinRoute, hroom]
      | some mid =>
        rcases hmem mid rfl with h | h
        · simp [joinRoute, hroom, h]
        · by_cases hq : mid = ""
          · simp [joinRoute, hroom, hq]
          · simp [joinRoute, hroom, hq, h]
    · exact setA_append_of_not_mem room.members freshId _ hfresh

/-- Claim C3 witness: rejoining with the existing id "M1" returns the
stored record with no mutation and no events. -/
theorem join_reconnect_or_fresh_insert_witness :
    joinRoute [("AB", ⟨"AB", 0, 0, 0,
        [("M1", ⟨"M1", "Alice", "UTC", "en", 5⟩)], []⟩)] "AB"
        (some "M1") "Alice" "UTC" "en" "F2" 9
      = some ([("AB", ⟨"AB", 0, 0, 0,
            [("M1", ⟨"M1", "Alice", "UTC", "en", 5⟩)], []⟩)],
          ⟨"M1", "Alice", "UTC", "en", 5⟩,
          roomSnapshot ⟨"AB", 0, 0, 0,
            [("M1", ⟨"M1", "Alice", "UTC", "en", 5⟩)], []⟩, []) :=
  (join_reconnect_or_fresh_insert [("AB", ⟨"AB", 0, 0, 0,
      [("M1", ⟨"M1", "Alice", "UTC", "en", 5⟩)], []⟩)] "AB"
      ⟨"AB", 0, 0, 0, [("M1", ⟨"M1", "Alice", "UTC", "en", 5⟩)], []⟩
      "Alice" "UTC" "en" "F2" 9 (by decide)).1
    "M1" ⟨"M1", "Alice", "UTC", "en", 5⟩ (by decide) (by decide)

/-- Claim C9: a leave naming a non-member of an existing room is a
no-op — registry unchanged, nothing broadcast — answered 204, and every
leave request answers 204 whether or not the member (or even the room)
existed. -/
theorem leave_absent_member_noop (reg : Registry) (code : String) (room : Room)
    (memberId : String) (hroom : lookupA reg code = some room)
    (habsent : lookupA room.members memberId = none) :
    leaveRoute reg code memberId = (reg, 204, []) ∧
    (∀ (reg0 : Registry) (code0 mid0 : String),
      (leaveRoute reg0 code0 mid0).2.1 = 204) := by
  constructor
  · simp [leaveRoute, hroom, habsent]
  · intro reg0 code0 mid0
    unfold leaveRoute
    split
    · rfl
    · split
      · rfl
      · rfl

/-- Claim C9 witness: leaving with the unknown id "ZZ" changes nothing
and answers 204. -/
theorem leave_absent_member_noop_witness :
    leaveRoute [("AB", ⟨"AB", 0, 0, 0,
        [("M1", ⟨"M1", "Alice", "UTC", "en", 5⟩)], []⟩)] "AB" "ZZ"
      = ([("AB", ⟨"AB", 0, 0, 0,
            [("M1", ⟨"M1", "Alice", "UTC", "en", 5⟩)], []⟩)], 204, []) :=
  (leave_absent_member_noop
    [("AB", ⟨"AB", 0, 0, 0, [("M1", ⟨"M1", "Alice", "UTC", "en", 5⟩)], []⟩)]
    "AB" ⟨"AB", 0, 0, 0, [("M1", ⟨"M1", "Alice", "UTC", "en", 5⟩)], []⟩
    "ZZ" (by decide) (by decide)).1

/-- Claim C2, evaluated at the failing input: an explicit leave that
removes the last member of a room with no open streams leaves the now
doubly-empty room in the registry — the leave route performs no empty-
room cleanup, so the next lookup still finds it. -/
theorem leave_last_member_room_persists :
    lookupA (leaveRoute [("AB", ⟨"AB", 0, 0, 0,
        [("M1", ⟨"M1", "Alice", "UTC", "en", 5⟩)], []⟩)] "AB" "M1").1 "AB"
      = some ⟨"AB", 0, 0, 0, [], []⟩ := by decide

/-! ### Event stream -/

/-- Claim C6: opening the event stream: an unresolvable code yields the
404 (nothing attached, registry untouched); on an existing room the
handle is added to the stream set and exactly one init event — carrying
createdAt, startTime, previousStartTime, code and the member list at
that instant — is addressed to the newly attached handle alone. -/
theorem events_open_attach_single_init (reg : Registry) (code : String)
    (h : Handle) :
    (lookupA reg code = none → eventsOpenRoute reg code h = none) ∧
    (∀ room, lookupA reg code = some room →
      ∃ reg2, eventsOpenRoute reg code h
          = some (reg2,
              [⟨h, "init",
                EventData.initData room.createdAt room.startTime
                  room.previousStartTime room.code
                  (room.members.map (fun p => p.2)),
                h.writeOk⟩]) ∧
        lookupA reg2 code
          = some { room with streams := addStream room.streams h } ∧
        h ∈ addStream room.streams h) := by
  constructor
  · intro hn
    simp [eventsOpenRoute, hn]
  · intro room hr
    refine ⟨setA reg code { room with streams := addStream room.streams h },
      ?_, lookupA_setA_self _ _ _, ?_⟩
    · simp [eventsOpenRoute, hr, initEvent, sendSSE_eq]
    · unfold addStream
      by_cases hmem : h ∈ room.streams
      · simp [hmem]
      · simp [hmem]

/-- Claim C6 witness: attaching handle 7 to a one-member room sends it
the full snapshot and registers it as a subscriber. -/
theorem events_open_attach_single_init_witness :
    ∃ reg2, eventsOpenRoute [("AB", ⟨"AB", 1, 2, 3,
        [("M1", ⟨"M1", "Alice", "UTC", "en", 5⟩)], []⟩)] "AB" ⟨7, true⟩
        = some (reg2,
            [⟨⟨7, true⟩, "init",
              EventData.initData 1 2 3 "AB" [⟨"M1", "Alice", "UTC", "en", 5⟩],
              true⟩]) ∧
      lookupA reg2 "AB"
        = some { (⟨"AB", 1, 2, 3,
              [("M1", ⟨"M1", "Alice", "UTC", "en", 5⟩)], []⟩ : Room) with
              streams := addStream [] ⟨7, true⟩ } ∧
      (⟨7, true⟩ : Handle) ∈ addStream [] ⟨7, true⟩ :=
  (events_open_attach_single_init [("AB", ⟨"AB", 1, 2, 3,
      [("M1", ⟨"M1", "Alice", "UTC", "en", 5⟩)], []⟩)] "AB" ⟨7, true⟩).2
    ⟨"AB", 1, 2, 3, [("M1", ⟨"M1", "Alice", "UTC", "en", 5⟩)], []⟩ (by decide)

/-- Claim C7: fan-out is exception-safe.  Every subscriber gets exactly
one write attempt, in stream order; the raw write on a dead handle
fails but `sendSSE` swallows the failure, so delivery to each handle
depends only on that handle's own state and every live handle still
receives the event; and the triggering mutation (reset here) completes
on any room regardless of its subscribers' write failures. -/
theorem broadcast_write_failure_isolated (room : Room) (ev : String)
    (d : EventData) :
    (broadcast room ev d).map (fun e => e.target) = room.streams ∧
    (∀ h, h ∈ room.streams → sendSSE h ev d = ⟨h, ev, d, h.writeOk⟩) ∧
    (∀ h, h ∈ room.streams → h.writeOk = false →
      rawWrite h ev d = Except.error "write EPIPE" ∧
      (⟨h, ev, d, false⟩ : SentEvent) ∈ broadcast room ev d) ∧
    (∀ h, h ∈ room.streams → h.writeOk = true →
      (⟨h, ev, d, true⟩ : SentEvent) ∈ broadcast room ev d) ∧
    (∀ (reg : Registry) (code : String) (reqStart : Option Int) (now : Int),
      lookupA reg code = some room →
      (resetRoute reg code reqStart now).isSome) := by
  refine ⟨broadcast_targets room ev d, ?_, ?_, ?_, ?_⟩
  · intro h _
    exact sendSSE_eq h ev d
  · intro h hmem hw
    refine ⟨by simp [rawWrite, hw], ?_⟩
    have : sendSSE h ev d = ⟨h, ev, d, false⟩ := by rw [sendSSE_eq, hw]
    exact this ▸ List.mem_map_of_mem (fun x => sendSSE x ev d) hmem
  · intro h hmem hw
    have : sendSSE h ev d = ⟨h, ev, d, true⟩ := by rw [sendSSE_eq, hw]
    exact this ▸ List.mem_map_of_mem (fun x => sendSSE x ev d) hmem
  · intro reg code reqStart now hr
    simp [resetRoute, hr]

/-- Claim C7 witness: with subscribers 1 (dead socket) and 2 (live),
the event still reaches handle 2 — the failure on handle 1 is isolated. -/
theorem broadcast_write_failure_isolated_witness :
    (⟨⟨2, true⟩, "member-left", EventData.memberLeft "M1", true⟩ : SentEvent) ∈
      broadcast ⟨"AB", 0, 0, 0, [], [⟨1, false⟩, ⟨2, true⟩]⟩ "member-left"
        (EventData.memberLeft "M1") :=
  ((broadcast_write_failure_isolated
      ⟨"AB", 0, 0, 0, [], [⟨1, false⟩, ⟨2, true⟩]⟩ "member-left"
      (EventData.memberLeft "M1")).2.2.2.1 ⟨2, true⟩ (by decide) rfl)
